import Mathlib

/-!
Verification of the sloggo syslog collector (Go) against its natural-language
specification.  The definitions below are a shallow embedding of the relevant
source functions:

* `src/backend/formats/rfc3164.go` — `ParseRFC3164ToLogEntry` and its regex;
* `src/backend/formats/rfc5424.go` — `GetFacilityFromPriority`,
  `GetSeverityFromPriority`, `SyslogMessageToLogEntry`;
* `src/unnamed/part_005` (package `db`, the current revision of the store,
  whose connection pragmas, cache layout and exact-equality filters are the
  ones the specification describes) — `buildWhereClause`, `GetLogs`,
  `GetFacets`, `getFacetValues`, `GetChartData`, `StoreLog`,
  `processBatchStoreLogs`;
* `src/backend/server/handlers/logs.go` — the sort-parameter handling of
  `LogsHandler`.

Modelling conventions: Go `time.Time` values that are only constructed and
compared appear as `GoTime` calendar records (the RFC 3164 parser) or as
integer instants (the store, where timestamps are persisted as RFC 3339 text
and compared by SQLite; we model a stored text timestamp by the instant it
denotes and SQL comparison by integer comparison).  `time.Now()` becomes an
explicit argument.  SQL queries are modelled by an explicit condition AST
(`Cond`) with its rendered SQL text (`renderCond`) and its row semantics
(`evalCond`), and query execution by filtering/sorting a Lean list of rows.
-/

namespace Sloggo

/-! ## Calendar timestamps (Go `time.Time` as used by the parsers)

`GoTime` records the wall-clock components of a Go `time.Time`.  The Go code
builds such values with `time.Date(year, month, day, hour, min, sec, 0, loc)`;
Go normalises out-of-range components, but every construction reached in this
development uses components that are already calendrical, so the record is
stored as given. -/
structure GoTime where
  year : Int
  month : Nat
  day : Nat
  hour : Nat
  minute : Nat
  second : Nat
deriving Repr, DecidableEq

/-! ## The shared record type (src/backend/models/log_entry.go, `LogEntry`) -/
structure LogEntry where
  rowID : Int := 0
  facility : Nat
  severity : Nat
  version : Nat := 1
  timestamp : GoTime
  hostname : String
  appName : String
  procId : String
  msgId : String
  structuredData : String
  message : String
deriving Repr, DecidableEq

/-! ## Character classes and Go string helpers -/

/-- The character class matched by RE2's `\s`, i.e. `[\t\n\f\r ]`
(Go `regexp` Perl character class). -/
def isGoRegexSpace (c : Char) : Bool :=
  c = ' ' || c = '\t' || c = '\n' || c = '\x0c' || c = '\r'

/-- ASCII whitespace recognised by Go `unicode.IsSpace` (the non-ASCII
space code points cannot occur in the inputs considered here). -/
def isGoSpace (c : Char) : Bool :=
  c = ' ' || c = '\t' || c = '\n' || c = '\x0b' || c = '\x0c' || c = '\r'

/-- Go `strings.TrimSpace`, on the character list of the string. -/
def goTrimSpace (l : List Char) : List Char :=
  ((l.dropWhile isGoSpace).reverse.dropWhile isGoSpace).reverse

/-- Numeric value of a list of decimal digit characters. -/
def digitsVal (l : List Char) : Nat :=
  l.foldl (fun acc c => acc * 10 + (c.toNat - '0'.toNat)) 0

/-- Go `strconv.Atoi`, restricted to the unsigned digit strings produced by
the RFC 3164 regex group `pri` (1–3 decimal digits, hence no sign handling
and no overflow). -/
def goAtoi (l : List Char) : Option Nat :=
  if l.isEmpty then none
  else if l.all Char.isDigit then some (digitsVal l)
  else none

/-- Go `strings.Split` with the one-character separator `"."`, on character
lists: maximal (possibly empty) runs between separators. -/
def splitOnChar (sep : Char) : List Char → List (List Char)
  | [] => [[]]
  | a :: rest =>
    let r := splitOnChar sep rest
    if a = sep then [] :: r
    else
      match r with
      | h :: t => (a :: h) :: t
      | [] => [[a]]

/-! ## RFC 5424 (src/backend/formats/rfc5424.go)

`rfc5424.SyslogMessage` (from the go-syslog library) is modelled with its
nilable fields as `Option`s.  The JSON serialisation performed by
`formatStructuredData` is abstracted: the structured-data payload is carried
as an already-serialised string, which no claim inspects. -/
structure SyslogMessage where
  priority : Option Nat
  version : Nat
  timestamp : Option GoTime
  hostname : Option String
  appname : Option String
  procID : Option String
  msgID : Option String
  structuredData : Option String
  message : Option String
deriving Repr, DecidableEq

/-- `GetFacilityFromPriority` (rfc5424.go): nil priority yields 0, otherwise
the `uint8` quotient by 8. -/
def GetFacilityFromPriority : Option Nat → Nat
  | none => 0
  | some p => p / 8

/-- `GetSeverityFromPriority` (rfc5424.go): nil priority yields 0, otherwise
the `uint8` remainder by 8. -/
def GetSeverityFromPriority : Option Nat → Nat
  | none => 0
  | some p => p % 8

/-- `SyslogMessageToLogEntry` (rfc5424.go).  `now` is the value of
`time.Now()` used when the message carries no timestamp. -/
def SyslogMessageToLogEntry (now : GoTime) : Option SyslogMessage → Option LogEntry
  | none => none
  | some m =>
    let fs : Nat × Nat :=
      match m.priority with
      | some _ => (GetFacilityFromPriority m.priority, GetSeverityFromPriority m.priority)
      | none => (0, 0)
    some
      { facility := fs.1
        severity := fs.2
        version := m.version
        timestamp := m.timestamp.getD now
        hostname := m.hostname.getD "-"
        appName := m.appname.getD "-"
        procId := m.procID.getD "-"
        msgId := m.msgID.getD "-"
        structuredData :=
          match m.structuredData with
          | some s => s
          | none => "-"
        message := m.message.getD "" }

/-! ## RFC 3164 (src/backend/formats/rfc3164.go)

The regex
`^<(?P<pri>\d{1,3})>(?P<ts>[A-Z][a-z]{2}\s+\d{1,2}\s+\d{2}:\d{2}:\d{2})\s+(?P<host>\S+)\s+(?P<tag>[A-Za-z0-9_.\-\/]+)(?:\[(?P<pid>[^\]]+)\])?:\s*(?P<msg>.*)$`
is embedded as a deterministic matcher that follows the regex left to right
with the greedy tokenisation RE2 produces on it (each character class here is
disjoint from its follower, so greedy runs are the only viable split).  `$`
is end of text and `.` does not match a newline, so a match requires the
message part to be newline-free. -/

/-- A character of the RFC 3164 `tag` class `[A-Za-z0-9_.\-\/]`. -/
def isTagChar (c : Char) : Bool :=
  c.isAlpha || c.isDigit || c = '_' || c = '.' || c = '-' || c = '/'

/-- Captured groups of the RFC 3164 regex. -/
structure R3164Groups where
  pri : List Char
  ts : List Char
  host : List Char
  tag : List Char
  pid : Option (List Char)
  msg : List Char
deriving Repr, DecidableEq

/-- The `ts` part of the regex:
`[A-Z][a-z]{2}\s+\d{1,2}\s+\d{2}:\d{2}:\d{2}`.  Returns the captured text
and the rest of the input. -/
def matchTs (l : List Char) : Option (List Char × List Char) :=
  match l with
  | c1 :: c2 :: c3 :: r0 =>
    if c1.isUpper && c2.isLower && c3.isLower then
      let sp1 := r0.takeWhile isGoRegexSpace
      let r1 := r0.dropWhile isGoRegexSpace
      if sp1.isEmpty then none
      else
        let d := r1.takeWhile Char.isDigit
        let r2 := r1.dropWhile Char.isDigit
        if d.isEmpty || decide (d.length > 2) then none
        else
          let sp2 := r2.takeWhile isGoRegexSpace
          let r3 := r2.dropWhile isGoRegexSpace
          if sp2.isEmpty then none
          else
            match r3 with
            | h1 :: h2 :: ':' :: m1 :: m2 :: ':' :: s1 :: s2 :: r4 =>
              if [h1, h2, m1, m2, s1, s2].all Char.isDigit then
                some (c1 :: c2 :: c3 :: (sp1 ++ d ++ sp2 ++
                  [h1, h2, ':', m1, m2, ':', s1, s2]), r4)
              else none
            | _ => none
    else none
  | _ => none

/-- The remainder of the regex after `<pri>`:
`ts \s+ host \s+ tag [pid]? : \s* msg $`. -/
def matchRest (r : List Char) :
    Option (List Char × List Char × List Char × Option (List Char) × List Char) :=
  match matchTs r with
  | none => none
  | some (ts, r1) =>
    let sp := r1.takeWhile isGoRegexSpace
    let r2 := r1.dropWhile isGoRegexSpace
    if sp.isEmpty then none
    else
      let host := r2.takeWhile (fun c => !isGoRegexSpace c)
      let r3 := r2.dropWhile (fun c => !isGoRegexSpace c)
      if host.isEmpty then none
      else
        let sp2 := r3.takeWhile isGoRegexSpace
        let r4 := r3.dropWhile isGoRegexSpace
        if sp2.isEmpty then none
        else
          let tag := r4.takeWhile isTagChar
          let r5 := r4.dropWhile isTagChar
          if tag.isEmpty then none
          else
            match r5 with
            | '[' :: r6 =>
              let pid := r6.takeWhile (fun c => c ≠ ']')
              let r7 := r6.dropWhile (fun c => c ≠ ']')
              if pid.isEmpty then none
              else
                match r7 with
                | ']' :: ':' :: r8 =>
                  let msg := r8.dropWhile isGoRegexSpace
                  if msg.contains '\n' then none
                  else some (ts, host, tag, some pid, msg)
                | _ => none
            | ':' :: r8 =>
              let msg := r8.dropWhile isGoRegexSpace
              if msg.contains '\n' then none
              else some (ts, host, tag, none, msg)
            | _ => none

/-- `rfc3164Regex.FindStringSubmatch`, as the named groups (or `none` when
the regex does not match). -/
def rfc3164Match (l : List Char) : Option R3164Groups :=
  match l with
  | '<' :: r0 =>
    let ds := r0.takeWhile Char.isDigit
    let r1 := r0.dropWhile Char.isDigit
    if ds.isEmpty || decide (ds.length > 3) then none
    else
      match r1 with
      | '>' :: r2 =>
        match matchRest r2 with
        | none => none
        | some (ts, host, tag, pid, msg) =>
          some { pri := ds, ts := ts, host := host, tag := tag, pid := pid, msg := msg }
      | _ => none
  | _ => none

/-- Month abbreviations of the Go layout `"Jan"`.  The regex constrains the
input to title case, for which Go's case-insensitive month lookup reduces to
exact comparison. -/
def monthIndex : List Char → Option Nat
  | ['J', 'a', 'n'] => some 1
  | ['F', 'e', 'b'] => some 2
  | ['M', 'a', 'r'] => some 3
  | ['A', 'p', 'r'] => some 4
  | ['M', 'a', 'y'] => some 5
  | ['J', 'u', 'n'] => some 6
  | ['J', 'u', 'l'] => some 7
  | ['A', 'u', 'g'] => some 8
  | ['S', 'e', 'p'] => some 9
  | ['O', 'c', 't'] => some 10
  | ['N', 'o', 'v'] => some 11
  | ['D', 'e', 'c'] => some 12
  | _ => none

/-- Days per month for the year-0 used by a Go `time.Parse` without a year
field (year 0 is leap in Go, so February has 29 days). -/
def daysInMonthYear0 (m : Nat) : Nat :=
  [31, 29, 31, 30, 31, 30, 31, 31, 30, 31, 30, 31].getD (m - 1) 0

/-- Decimal value of a digit character. -/
def digitVal (c : Char) : Nat := c.toNat - '0'.toNat

/-- Go `time.ParseInLocation("Jan _2 15:04:05", ts, loc)`, returning the
parsed `(month, day, hour, minute, second)` or `none` on any Go parse error:
unknown month, malformed day (`_2`: an optional leading space then one or
two digits), malformed fixed-width time fields, trailing input, or an
out-of-range component (`day out of range` uses the year-0 month lengths;
hours above 23 and minutes/seconds above 59 are errors). -/
def goParseTimestamp (l : List Char) : Option (Nat × Nat × Nat × Nat × Nat) :=
  match l with
  | c1 :: c2 :: c3 :: rest =>
    match monthIndex [c1, c2, c3] with
    | none => none
    | some mo =>
      match rest with
      | ' ' :: r1 =>
        let r2 := match r1 with
                  | ' ' :: t => t
                  | _ => r1
        match r2 with
        | a :: rest2 =>
          if a.isDigit then
            let dr : Nat × List Char :=
              match rest2 with
              | b :: t => if b.isDigit then (digitVal a * 10 + digitVal b, t) else (digitVal a, rest2)
              | [] => (digitVal a, [])
            match dr.2 with
            | ' ' :: h1 :: h2 :: ':' :: m1 :: m2 :: ':' :: s1 :: s2 :: [] =>
              if [h1, h2, m1, m2, s1, s2].all Char.isDigit then
                let hour := digitVal h1 * 10 + digitVal h2
                let minute := digitVal m1 * 10 + digitVal m2
                let second := digitVal s1 * 10 + digitVal s2
                if hour ≤ 23 && minute ≤ 59 && second ≤ 59 &&
                    1 ≤ dr.1 && dr.1 ≤ daysInMonthYear0 mo then
                  some (mo, dr.1, hour, minute, second)
                else none
              else none
            | _ => none
          else none
        | [] => none
      | _ => none
  | _ => none

/-- The `LogEntry` built by `ParseRFC3164ToLogEntry` from the regex groups:
priority is split into facility/severity, the timestamp keeps the current
year (`time.Date(now.Year(), …)`); a failed timestamp parse substitutes
`now`'s own components. -/
def entryOfGroups (now : GoTime) (pri : Nat) (g : R3164Groups) : LogEntry :=
  let ts : GoTime :=
    match goParseTimestamp g.ts with
    | some (mo, d, h, mi, s) => ⟨now.year, mo, d, h, mi, s⟩
    | none => ⟨now.year, now.month, now.day, now.hour, now.minute, now.second⟩
  let hostname := if g.host.isEmpty then "-" else String.mk g.host
  let appName := if g.tag.isEmpty then "-" else String.mk g.tag
  let procId :=
    match g.pid with
    | some p => if p.isEmpty then "-" else String.mk p
    | none => "-"
  { severity := pri % 8
    facility := pri / 8
    version := 1
    timestamp := ts
    hostname := hostname
    appName := appName
    procId := procId
    msgId := "-"
    structuredData := "-"
    message := String.mk g.msg }

/-- `ParseRFC3164ToLogEntry` (rfc3164.go).  `now` is the value of
`time.Now()` observed during the call. -/
def ParseRFC3164ToLogEntry (now : GoTime) (line : String) : Except String LogEntry :=
  let l := goTrimSpace line.toList
  if l.isEmpty then .error "empty message"
  else
    match rfc3164Match l with
    | none => .error "not rfc3164 format"
    | some g =>
      match goAtoi g.pri with
      | none => .error "invalid syntax"
      | some pri => .ok (entryOfGroups now pri g)

/-! ## The store's query layer (src/unnamed/part_005, package `db`)

A persisted row of the `logs` table.  The `timestamp` column holds RFC 3339
text; a stored value is modelled by the instant it denotes, and SQLite's text
comparison on the column by integer comparison of instants. -/
structure LogRow where
  rowid : Int := 0
  facility : Int
  severity : Int
  version : Int := 1
  timestamp : Int
  hostname : String
  app_name : String
  procid : String
  msgid : String
  structured_data : String := "-"
  msg : String := ""
deriving Repr, DecidableEq

/-- The filter map handed to the query builder.  The Go code passes a
`map[string]any`; `buildWhereClause` switches on exactly the keys below, so
the map is modelled as one optional field per recognised key (Go map
iteration order is unspecified and the produced conditions are joined by
`AND`, so a fixed field order is semantically faithful). -/
structure Filters where
  hostname : Option String := none
  appName : Option String := none
  procId : Option String := none
  msgId : Option String := none
  facility : Option (List Int) := none
  severity : Option (List Int) := none
  startDate : Option Int := none
  endDate : Option Int := none
deriving Repr, DecidableEq

/-- One condition of a generated WHERE clause, carrying its bound
parameter(s); `renderCond` gives the SQL text appended by the source and
`evalCond` the SQLite semantics of that text on a row. -/
inductive Cond where
  | tsLtCursor (t : Int)
  | tsGtCursor (t : Int)
  | hostnameEq (v : String)
  | appNameEq (v : String)
  | procIdEq (v : String)
  | msgIdEq (v : String)
  | facilityIn (vs : List Int)
  | severityIn (vs : List Int)
  | tsGe (t : Int)
  | tsLe (t : Int)
deriving Repr, DecidableEq

/-- `?, ?, …` — the placeholder list `strings.Join(placeholders, ",")`. -/
def placeholderText (n : Nat) : String :=
  String.intercalate "," (List.replicate n "?")

/-- The SQL fragment appended to `conditions` for each case of
`buildWhereClause` (src/unnamed/part_005). -/
def renderCond : Cond → String
  | .tsLtCursor _ => "timestamp < ?"
  | .tsGtCursor _ => "timestamp > ?"
  | .hostnameEq _ => "hostname = ?"
  | .appNameEq _ => "app_name = ?"
  | .procIdEq _ => "procid = ?"
  | .msgIdEq _ => "msgid = ?"
  | .facilityIn vs => "facility IN (" ++ placeholderText vs.length ++ ")"
  | .severityIn vs => "severity IN (" ++ placeholderText vs.length ++ ")"
  | .tsGe _ => "timestamp >= ?"
  | .tsLe _ => "timestamp <= ?"

/-- SQLite semantics of a rendered condition on a row. -/
def evalCond (r : LogRow) : Cond → Bool
  | .tsLtCursor t => r.timestamp < t
  | .tsGtCursor t => r.timestamp > t
  | .hostnameEq v => r.hostname = v
  | .appNameEq v => r.app_name = v
  | .procIdEq v => r.procid = v
  | .msgIdEq v => r.msgid = v
  | .facilityIn vs => vs.contains r.facility
  | .severityIn vs => vs.contains r.severity
  | .tsGe t => r.timestamp ≥ t
  | .tsLe t => r.timestamp ≤ t

/-- `buildWhereClause` (src/unnamed/part_005): the cursor condition comes
first — strict `timestamp > ?` for direction `"prev"`, strict
`timestamp < ?` otherwise — followed by one condition per present filter
key.  A zero `time.Time` cursor is `none`. -/
def cursorConds (cursor : Option Int) (direction : String) : List Cond :=
  match cursor with
  | none => []
  | some c => if direction = "prev" then [.tsGtCursor c] else [.tsLtCursor c]

def buildWhereClause (filters : Filters) (cursor : Option Int) (direction : String) :
    List Cond :=
  cursorConds cursor direction ++
    (match filters.hostname with | some v => [Cond.hostnameEq v] | none => []) ++
    (match filters.appName with | some v => [Cond.appNameEq v] | none => []) ++
    (match filters.procId with | some v => [Cond.procIdEq v] | none => []) ++
    (match filters.msgId with | some v => [Cond.msgIdEq v] | none => []) ++
    (match filters.facility with
     | some vs => if vs.length > 0 then [Cond.facilityIn vs] else []
     | none => []) ++
    (match filters.severity with
     | some vs => if vs.length > 0 then [Cond.severityIn vs] else []
     | none => []) ++
    (match filters.startDate with | some t => [Cond.tsGe t] | none => []) ++
    (match filters.endDate with | some t => [Cond.tsLe t] | none => [])

/-- A row satisfies the generated WHERE clause (conditions joined by `AND`). -/
def matchesWhere (conds : List Cond) (r : LogRow) : Bool :=
  conds.all (evalCond r)

/-- Insertion into a sorted list, for `sortBy`. -/
def insertSorted {α : Type} (le : α → α → Bool) (x : α) : List α → List α
  | [] => [x]
  | y :: ys => if le x y then x :: y :: ys else y :: insertSorted le x ys

/-- A stable insertion sort modelling SQL `ORDER BY` (which guarantees only
the ordering of the result, the property the theorems below use through
membership preservation). -/
def sortBy {α : Type} (le : α → α → Bool) : List α → List α
  | [] => []
  | x :: xs => insertSorted le x (sortBy le xs)

/-- The `ORDER BY <sortField> <sortOrder>` comparison used by `GetLogs`.
Only the allow-listed columns denote typed comparisons; any other
interpolated field name is modelled as the default timestamp order (the
clause only permutes the filtered rows, which is all the theorems below rely
on). -/
def rowLe (sortField sortOrder : String) (a b : LogRow) : Bool :=
  let asc :=
    if sortField = "severity" then decide (a.severity ≤ b.severity)
    else if sortField = "facility" then decide (a.facility ≤ b.facility)
    else if sortField = "priority" then
      decide (a.facility * 8 + a.severity ≤ b.facility * 8 + b.severity)
    else if sortField = "hostname" then decide (a.hostname ≤ b.hostname)
    else if sortField = "app_name" then decide (a.app_name ≤ b.app_name)
    else decide (a.timestamp ≤ b.timestamp)
  if sortOrder = "ASC" then asc else !asc

/-- `GetLogs` (src/unnamed/part_005): filter by the generated WHERE clause,
`ORDER BY sortField sortOrder` (default `timestamp DESC` when either is
empty), `LIMIT limit`. -/
def GetLogs (limit : Nat) (cursor : Option Int) (direction : String)
    (filters : Filters) (sortField sortOrder : String) (rows : List LogRow) :
    List LogRow :=
  let conds := buildWhereClause filters cursor direction
  let filtered := rows.filter (matchesWhere conds)
  let sorted :=
    if sortField ≠ "" ∧ sortOrder ≠ "" then sortBy (rowLe sortField sortOrder) filtered
    else sortBy (rowLe "timestamp" "DESC") filtered
  sorted.take limit

/-! ### Facets (`GetFacets` / `getFacetValues`, src/unnamed/part_005) -/

/-- The two facet fields the current core computes. -/
inductive FacetField where
  | severity
  | facility
deriving Repr, DecidableEq

/-- The grouped column of a facet query. -/
def facetKey : FacetField → LogRow → Int
  | .severity, r => r.severity
  | .facility, r => r.facility

/-- The `limit` argument `GetFacets` passes for each field. -/
def facetFieldLimit : FacetField → Nat
  | .severity => 8
  | .facility => 24

/-- `getFacetValues` (src/unnamed/part_005):
`SELECT <field>, COUNT(*) FROM logs WHERE … GROUP BY <field>
ORDER BY total DESC LIMIT <limit>`, with the WHERE clause built from the
given filters and no cursor. -/
def getFacetValues (field : FacetField) (filters : Filters) (limit : Nat)
    (rows : List LogRow) : List (Int × Nat) :=
  let conds := buildWhereClause filters none ""
  let filtered := rows.filter (matchesWhere conds)
  let values := (filtered.map (facetKey field)).dedup
  let pairs := values.map fun v =>
    (v, (filtered.filter (fun r => facetKey field r = v)).length)
  (sortBy (fun a b => decide (b.2 ≤ a.2)) pairs).take limit

/-- The filter set `GetFacets` actually queries with: the input filters with
the temporal keys `startDate`/`endDate` removed. -/
def facetFilters (f : Filters) : Filters :=
  { f with startDate := none, endDate := none }

/-- `GetFacets` (src/unnamed/part_005): strips `startDate`/`endDate`, then
computes the severity and facility facets (the cache layer returns the value
this same computation produced earlier for an identical filter set, so it is
not modelled). -/
def GetFacets (filters : Filters) (rows : List LogRow) :
    List (String × List (Int × Nat)) :=
  let ff := facetFilters filters
  [("severity", getFacetValues .severity ff 8 rows),
   ("facility", getFacetValues .facility ff 24 rows)]

/-! ### Chart data (`GetChartData`, src/unnamed/part_005) -/

/-- `ChartDataPoint` (src/unnamed/part_005). -/
structure ChartDataPoint where
  timestamp : Int
  debug : Nat
  info : Nat
  notice : Nat
  warning : Nat
  error : Nat
  critical : Nat
  alert : Nat
  emergency : Nat
deriving Repr, DecidableEq

/-- Go `cursor.Truncate(time.Hour)` on an epoch-second instant (the Go zero
time is hour-aligned with the epoch, so truncation is the floor to the hour). -/
def floorHour (t : Int) : Int := t - t % 3600

/-- The filter map `GetChartData` queries with: the caller's filters with
`endDate` overwritten by the next hour boundary after the cursor and
`startDate` by the cursor minus 24 hours. -/
def chartFilters (cursor : Int) (filters : Filters) : Filters :=
  { filters with
      endDate := some (floorHour cursor + 3600)
      startDate := some (cursor - 86400) }

/-- One row of the chart query for an hour group: the representative
`strftime('%s', timestamp) * 1000` and the eight `SUM(CASE WHEN severity = k
THEN 1 ELSE 0 END)` columns. -/
def mkChartPoint (group : List LogRow) : ChartDataPoint :=
  { timestamp :=
      match group with
      | r :: _ => r.timestamp * 1000
      | [] => 0
    debug := (group.filter (fun r => r.severity = 7)).length
    info := (group.filter (fun r => r.severity = 6)).length
    notice := (group.filter (fun r => r.severity = 5)).length
    warning := (group.filter (fun r => r.severity = 4)).length
    error := (group.filter (fun r => r.severity = 3)).length
    critical := (group.filter (fun r => r.severity = 2)).length
    alert := (group.filter (fun r => r.severity = 1)).length
    emergency := (group.filter (fun r => r.severity = 0)).length }

/-- `GetChartData` (src/unnamed/part_005): overwrite the temporal filters
from the cursor, filter, `GROUP BY strftime('%Y-%m-%d %H', timestamp)`
(the hour bucket of the instant), `ORDER BY ts ASC` (the cache layer is not
modelled, as for `GetFacets`). -/
def GetChartData (cursor : Int) (filters : Filters) (rows : List LogRow) :
    List ChartDataPoint :=
  let cf := chartFilters cursor filters
  let conds := buildWhereClause cf none ""
  let filtered := rows.filter (matchesWhere conds)
  let buckets := (filtered.map (fun r => floorHour r.timestamp)).dedup
  let points := buckets.map fun b =>
    mkChartPoint (filtered.filter (fun r => floorHour r.timestamp = b))
  sortBy (fun a b => decide (a.timestamp ≤ b.timestamp)) points

/-! ## The batch writer (`StoreLog` / `processBatchStoreLogs`,
src/unnamed/part_005)

The mutable pair (pending `batchStoreLogsParams`, committed table) becomes an
explicit state; a row insert's success is decided by an oracle `fail`
standing for the SQLite `Exec` outcome. -/
structure BatchState (α : Type) where
  pending : List α
  store : List α
deriving Repr, DecidableEq

/-- The statement executions of one transaction: rows are appended in
submission order until the first failing `Exec`, which aborts. -/
def execBatchInserts {α : Type} (fail : α → Bool) : List α → Option (List α)
  | [] => some []
  | p :: rest =>
    if fail p then none
    else
      match execBatchInserts fail rest with
      | some l => some (p :: l)
      | none => none

/-- `processBatchStoreLogs` (src/unnamed/part_005): empty queue is a no-op;
otherwise run all inserts in one transaction.  A failing insert rolls the
transaction back (the table is unchanged) and returns the error — the
pending queue is left as it was, since the source clears
`batchStoreLogsParams` only after a successful commit. -/
def processBatchStoreLogs {α : Type} (fail : α → Bool) (st : BatchState α) :
    Except String Unit × BatchState α :=
  if st.pending.isEmpty then (.ok (), st)
  else
    match execBatchInserts fail st.pending with
    | none => (.error "Failed to execute batch statement", st)
    | some inserted => (.ok (), { pending := [], store := st.store ++ inserted })

/-! ## Sort-parameter handling (`LogsHandler`, src/backend/server/handlers/logs.go) -/

/-- Go `strings.Split(s, ".")`. -/
def goSplitDot (s : String) : List String :=
  (splitOnChar '.' s.toList).map fun cs => String.mk cs

/-- The `sort` query-parameter handling of `LogsHandler`: start from
`("timestamp", "DESC")`; when the parameter is non-empty and splits on `"."`
into exactly two parts, the first part becomes the sort field verbatim and
the order becomes `ASC` exactly when the second part is `"asc"`. -/
def parseSortParam (s : String) : String × String :=
  if s = "" then ("timestamp", "DESC")
  else
    match goSplitDot s with
    | [f, o] => (f, if o = "asc" then "ASC" else "DESC")
    | _ => ("timestamp", "DESC")

/-- The field name `GetLogs` interpolates into `ORDER BY` (src/unnamed/part_005,
the sorting branch of `GetLogs`): the given field unless either argument is
empty, in which case the default `timestamp`. -/
def sortFieldUsed (sortField sortOrder : String) : String :=
  if sortField ≠ "" ∧ sortOrder ≠ "" then sortField else "timestamp"

/-- The sort-field allow-list named by the specification
(`timestamp`, `severity`, `facility`, `priority`, `hostname`, `app_name`).
Stated from the spec's words for comparison with the code's behaviour. -/
def specSortAllowList : List String :=
  ["timestamp", "severity", "facility", "priority", "hostname", "app_name"]

/-! ## Supporting lemmas -/

/-- Membership through `insertSorted`. -/
theorem mem_insertSorted {α : Type} {le : α → α → Bool} {x a : α} {l : List α} :
    a ∈ insertSorted le x l ↔ a = x ∨ a ∈ l := by
  induction l with
  | nil => simp [insertSorted]
  | cons y ys ih =>
    simp only [insertSorted]
    split
    · simp [List.mem_cons]
    · simp only [List.mem_cons, ih]
      tauto

/-- `sortBy` permutes its input, in particular preserves membership. -/
theorem mem_sortBy {α : Type} {le : α → α → Bool} {a : α} {l : List α} :
    a ∈ sortBy le l ↔ a ∈ l := by
  induction l with
  | nil => simp [sortBy]
  | cons x xs ih => simp [sortBy, mem_insertSorted, ih, List.mem_cons]

/-- Every row returned by `GetLogs` satisfies the generated WHERE clause. -/
theorem mem_GetLogs_matches {limit : Nat} {cursor : Option Int}
    {direction : String} {filters : Filters} {sortField sortOrder : String}
    {rows : List LogRow} {r : LogRow}
    (h : r ∈ GetLogs limit cursor direction filters sortField sortOrder rows) :
    matchesWhere (buildWhereClause filters cursor direction) r = true := by
  unfold GetLogs at h
  have h1 := List.take_subset _ _ h
  split at h1 <;>
  · rw [mem_sortBy] at h1
    exact (List.mem_filter.mp h1).2

/-- A row satisfying a WHERE clause satisfies each of its conditions. -/
theorem matchesWhere_cond {conds : List Cond} {r : LogRow} {c : Cond}
    (h : matchesWhere conds r = true) (hc : c ∈ conds) : evalCond r c = true := by
  unfold matchesWhere at h
  exact List.all_eq_true.mp h c hc

/-- The cursor condition built for a non-`prev` direction. -/
theorem buildWhereClause_cursor_next (filters : Filters) (c : Int) :
    Cond.tsLtCursor c ∈ buildWhereClause filters (some c) "next" := by
  have h : cursorConds (some c) "next" = [Cond.tsLtCursor c] := rfl
  unfold buildWhereClause
  rw [h]
  simp

/-- The cursor condition built for direction `prev`. -/
theorem buildWhereClause_cursor_prev (filters : Filters) (c : Int) :
    Cond.tsGtCursor c ∈ buildWhereClause filters (some c) "prev" := by
  have h : cursorConds (some c) "prev" = [Cond.tsGtCursor c] := rfl
  unfold buildWhereClause
  rw [h]
  simp

/-- The condition emitted for a present `hostname` filter. -/
theorem buildWhereClause_hostname {f : Filters} {v : String}
    (h : f.hostname = some v) (cursor : Option Int) (dir : String) :
    Cond.hostnameEq v ∈ buildWhereClause f cursor dir := by
  simp [buildWhereClause, h]

/-- The condition emitted for a present `appName` filter. -/
theorem buildWhereClause_appName {f : Filters} {v : String}
    (h : f.appName = some v) (cursor : Option Int) (dir : String) :
    Cond.appNameEq v ∈ buildWhereClause f cursor dir := by
  simp [buildWhereClause, h]

/-- The condition emitted for a present `procId` filter. -/
theorem buildWhereClause_procId {f : Filters} {v : String}
    (h : f.procId = some v) (cursor : Option Int) (dir : String) :
    Cond.procIdEq v ∈ buildWhereClause f cursor dir := by
  simp [buildWhereClause, h]

/-- The condition emitted for a present `msgId` filter. -/
theorem buildWhereClause_msgId {f : Filters} {v : String}
    (h : f.msgId = some v) (cursor : Option Int) (dir : String) :
    Cond.msgIdEq v ∈ buildWhereClause f cursor dir := by
  simp [buildWhereClause, h]

/-! ## The claims -/

/-- **C1.**  For every `GET /api/logs` with `direction=next` and a finite
cursor, every returned row has timestamp strictly below the cursor instant,
and with `direction=prev` strictly above: `buildWhereClause` emits the
strict `timestamp < ?` condition for `next` and the strict `timestamp > ?`
condition for `prev`, so the boundary row is never returned twice. -/
theorem getLogs_cursor_strict (filters : Filters) (c : Int) (limit : Nat)
    (sf so : String) (rows rows' : List LogRow) (r r' : LogRow)
    (hnext : r ∈ GetLogs limit (some c) "next" filters sf so rows)
    (hprev : r' ∈ GetLogs limit (some c) "prev" filters sf so rows') :
    r.timestamp < c ∧ c < r'.timestamp
    ∧ Cond.tsLtCursor c ∈ buildWhereClause filters (some c) "next"
    ∧ Cond.tsGtCursor c ∈ buildWhereClause filters (some c) "prev"
    ∧ renderCond (Cond.tsLtCursor c) = "timestamp < ?"
    ∧ renderCond (Cond.tsGtCursor c) = "timestamp > ?" := by
  have h1 := matchesWhere_cond (mem_GetLogs_matches hnext)
    (buildWhereClause_cursor_next filters c)
  have h2 := matchesWhere_cond (mem_GetLogs_matches hprev)
    (buildWhereClause_cursor_prev filters c)
  refine ⟨?_, ?_, buildWhereClause_cursor_next filters c,
    buildWhereClause_cursor_prev filters c, rfl, rfl⟩
  · simpa [evalCond] using h1
  · simpa [evalCond] using h2

/-- **C1 witness.** -/
theorem getLogs_cursor_strict_witness :
    (⟨1, 1, 1, 1, 50, "h", "a", "p", "m", "-", "x"⟩ : LogRow).timestamp < 100
    ∧ (100 : Int) < (⟨2, 1, 1, 1, 150, "h", "a", "p", "m", "-", "y"⟩ : LogRow).timestamp
    ∧ Cond.tsLtCursor 100 ∈ buildWhereClause {} (some 100) "next"
    ∧ Cond.tsGtCursor 100 ∈ buildWhereClause {} (some 100) "prev"
    ∧ renderCond (Cond.tsLtCursor 100) = "timestamp < ?"
    ∧ renderCond (Cond.tsGtCursor 100) = "timestamp > ?" :=
  getLogs_cursor_strict {} 100 50 "timestamp" "DESC"
    [⟨1, 1, 1, 1, 50, "h", "a", "p", "m", "-", "x"⟩,
     ⟨2, 1, 1, 1, 150, "h", "a", "p", "m", "-", "y"⟩]
    [⟨1, 1, 1, 1, 50, "h", "a", "p", "m", "-", "x"⟩,
     ⟨2, 1, 1, 1, 150, "h", "a", "p", "m", "-", "y"⟩]
    ⟨1, 1, 1, 1, 50, "h", "a", "p", "m", "-", "x"⟩
    ⟨2, 1, 1, 1, 150, "h", "a", "p", "m", "-", "y"⟩
    (by decide) (by decide)

/-- **C2.**  For every filter on hostname, app_name, proc_id or msg_id the
builder emits an exact string-equality condition (`hostname = ?` etc.), a
row satisfies it exactly when the column equals the supplied string, and
consequently every row returned under a hostname filter carries exactly that
hostname; no `LIKE`-style substring condition is produced for these keys. -/
theorem buildWhereClause_exact_string_filters (f : Filters)
    (cursor : Option Int) (dir : String) :
    (∀ v, f.hostname = some v →
      Cond.hostnameEq v ∈ buildWhereClause f cursor dir
      ∧ renderCond (Cond.hostnameEq v) = "hostname = ?"
      ∧ ∀ r : LogRow, evalCond r (Cond.hostnameEq v) = true ↔ r.hostname = v)
    ∧ (∀ v, f.appName = some v →
      Cond.appNameEq v ∈ buildWhereClause f cursor dir
      ∧ renderCond (Cond.appNameEq v) = "app_name = ?"
      ∧ ∀ r : LogRow, evalCond r (Cond.appNameEq v) = true ↔ r.app_name = v)
    ∧ (∀ v, f.procId = some v →
      Cond.procIdEq v ∈ buildWhereClause f cursor dir
      ∧ renderCond (Cond.procIdEq v) = "procid = ?"
      ∧ ∀ r : LogRow, evalCond r (Cond.procIdEq v) = true ↔ r.procid = v)
    ∧ (∀ v, f.msgId = some v →
      Cond.msgIdEq v ∈ buildWhereClause f cursor dir
      ∧ renderCond (Cond.msgIdEq v) = "msgid = ?"
      ∧ ∀ r : LogRow, evalCond r (Cond.msgIdEq v) = true ↔ r.msgid = v)
    ∧ (∀ v limit sf so rows r, f.hostname = some v →
        r ∈ GetLogs limit cursor dir f sf so rows → r.hostname = v) := by
  refine ⟨fun v h => ⟨buildWhereClause_hostname h cursor dir, rfl, fun r => ?_⟩,
    fun v h => ⟨buildWhereClause_appName h cursor dir, rfl, fun r => ?_⟩,
    fun v h => ⟨buildWhereClause_procId h cursor dir, rfl, fun r => ?_⟩,
    fun v h => ⟨buildWhereClause_msgId h cursor dir, rfl, fun r => ?_⟩,
    fun v limit sf so rows r h hr => ?_⟩
  · simp [evalCond]
  · simp [evalCond]
  · simp [evalCond]
  · simp [evalCond]
  · have := matchesWhere_cond (mem_GetLogs_matches hr)
      (buildWhereClause_hostname h cursor dir)
    simpa [evalCond] using this

/-- **C2 witness.** -/
theorem buildWhereClause_exact_string_filters_witness :
    Cond.hostnameEq "web1" ∈
      buildWhereClause { hostname := some "web1", appName := some "api", procId := some "77", msgId := some "ID9" } none ""
    ∧ (⟨1, 1, 1, 1, 50, "web1", "api", "77", "ID9", "-", "x"⟩ : LogRow).hostname = "web1" :=
  ⟨((buildWhereClause_exact_string_filters
      { hostname := some "web1", appName := some "api", procId := some "77", msgId := some "ID9" } none "").1 "web1" rfl).1,
   (buildWhereClause_exact_string_filters
      { hostname := some "web1", appName := some "api", procId := some "77", msgId := some "ID9" } none "").2.2.2.2 "web1" 50
      "timestamp" "DESC"
      [⟨1, 1, 1, 1, 50, "web1", "api", "77", "ID9", "-", "x"⟩]
      ⟨1, 1, 1, 1, 50, "web1", "api", "77", "ID9", "-", "x"⟩ rfl (by decide)⟩

/-- **C3 counterexample.**  The claim says every sort field outside the
allow-list falls back to `timestamp`; but for `sort=bogus.asc` the handler
passes the field `bogus` through verbatim and `GetLogs` interpolates it into
`ORDER BY`, so the field actually used is `bogus`, which is neither in the
allow-list nor `timestamp`. -/
theorem sortField_not_allowlisted :
    sortFieldUsed (parseSortParam "bogus.asc").1 (parseSortParam "bogus.asc").2 = "bogus"
    ∧ "bogus" ∉ specSortAllowList
    ∧ sortFieldUsed (parseSortParam "bogus.asc").1 (parseSortParam "bogus.asc").2
        ≠ "timestamp" := by
  decide

/-- **C3 (amended).**  There is no allow-list: whenever the `sort`
parameter splits on `.` into exactly two parts, the first part — whatever
string it is — becomes the sort field used in `ORDER BY` (with order `ASC`
exactly for a second part `asc`); the fallback to `timestamp` happens only
when the parameter is empty or does not have exactly two dot-separated
parts (or when the field part is empty). -/
theorem sortField_verbatim :
    (∀ s f o, goSplitDot s = [f, o] → s ≠ "" →
      parseSortParam s = (f, if o = "asc" then "ASC" else "DESC")
      ∧ (f ≠ "" → sortFieldUsed f (if o = "asc" then "ASC" else "DESC") = f))
    ∧ (∀ s, (goSplitDot s).length ≠ 2 → parseSortParam s = ("timestamp", "DESC")) := by
  constructor
  · intro s f o h hs
    constructor
    · unfold parseSortParam
      rw [if_neg hs, h]
    · intro hf
      by_cases ho : o = "asc" <;> simp [ho, sortFieldUsed, hf]
  · intro s hlen
    unfold parseSortParam
    split
    · rfl
    · cases h2 : goSplitDot s with
      | nil => rfl
      | cons a t =>
        cases t with
        | nil => rfl
        | cons b t2 =>
          cases t2 with
          | nil => exact absurd (by rw [h2]; rfl) hlen
          | cons d t3 => rfl

/-- **C3 witness.** -/
theorem sortField_verbatim_witness :
    parseSortParam "hostname.asc" = ("hostname", "ASC")
    ∧ sortFieldUsed "hostname" "ASC" = "hostname" := by
  have h := sortField_verbatim.1 "hostname.asc" "hostname" "asc" (by decide) (by decide)
  exact ⟨h.1, h.2 (by decide)⟩

/-- **C5 counterexample.**  The claim says the entries of an aborted batch
are removed from the pending queue and never re-submitted; in the code a
failed flush returns before `batchStoreLogsParams` is cleared, so the
entries stay queued and the next (here: successful) flush commits them. -/
theorem failed_batch_retained :
    ((processBatchStoreLogs (fun _ => true) (⟨[42], []⟩ : BatchState Nat)).1.isOk = false)
    ∧ ((processBatchStoreLogs (fun _ => true) (⟨[42], []⟩ : BatchState Nat)).2.pending = [42])
    ∧ ((processBatchStoreLogs (fun _ => false)
        (processBatchStoreLogs (fun _ => true) (⟨[42], []⟩ : BatchState Nat)).2).2.store
          = [42]) := by
  decide

/-- `execBatchInserts` succeeds only with exactly its input batch. -/
theorem execBatchInserts_eq {α : Type} (fail : α → Bool) :
    ∀ {l l' : List α}, execBatchInserts fail l = some l' → l' = l := by
  intro l
  induction l with
  | nil =>
    intro l' h
    simpa [execBatchInserts] using h.symm
  | cons p rest ih =>
    intro l' h
    unfold execBatchInserts at h
    split at h
    · exact absurd h (by simp)
    · cases hx : execBatchInserts fail rest with
      | none => rw [hx] at h; exact absurd h (by simp)
      | some l2 =>
        rw [hx] at h
        simp only [Option.some.injEq] at h
        rw [← h, ih hx]

/-- **C5 (amended).**  If any row insert during a batch flush fails, the
flush rolls back the whole transaction (the table is unchanged) and
surfaces the error, but the batch's entries stay in the pending queue and
are re-submitted by the next flush; the queue is cleared, and the rows
committed in submission order, only on success. -/
theorem processBatch_rollback_retries {α : Type} (fail : α → Bool) (st : BatchState α) :
    ((processBatchStoreLogs fail st).1.isOk = false →
      (processBatchStoreLogs fail st).2 = st)
    ∧ ((processBatchStoreLogs fail st).1.isOk = true →
      (processBatchStoreLogs fail st).2.pending = []
      ∧ (processBatchStoreLogs fail st).2.store = st.store ++ st.pending) := by
  unfold processBatchStoreLogs
  split
  · rename_i hempty
    refine ⟨fun h => rfl, fun _ => ⟨List.isEmpty_iff.mp hempty, ?_⟩⟩
    rw [List.isEmpty_iff.mp hempty, List.append_nil]
  · cases hx : execBatchInserts fail st.pending with
    | none => exact ⟨fun _ => rfl, fun h => by simp [Except.isOk, Except.toBool] at h⟩
    | some inserted =>
      refine ⟨fun h => by simp [Except.isOk, Except.toBool] at h,
        fun _ => ⟨rfl, ?_⟩⟩
      rw [execBatchInserts_eq fail hx]

/-- **C5 witness.** -/
theorem processBatch_rollback_retries_witness :
    (processBatchStoreLogs (fun _ => true) (⟨[42], []⟩ : BatchState Nat)).2 = ⟨[42], []⟩
    ∧ (processBatchStoreLogs (fun _ => false) (⟨[42], []⟩ : BatchState Nat)).2.pending = [] :=
  ⟨(processBatch_rollback_retries (fun _ => true) ⟨[42], []⟩).1 (by decide),
   ((processBatch_rollback_retries (fun _ => false) ⟨[42], []⟩).2 (by decide)).1⟩

/-- **C10.**  `GetChartData` returns the same chart whether or not the
caller's filter map contains `startDate`/`endDate`: it overwrites both from
the cursor alone — `endDate` with the next hour boundary after the cursor,
`startDate` with the cursor minus 24 hours — and those are the bounds the
generated WHERE clause carries. -/
theorem chartData_ignores_caller_range (cursor : Int) (filters : Filters)
    (rows : List LogRow) :
    (∀ s e, GetChartData cursor { filters with startDate := s, endDate := e } rows
      = GetChartData cursor filters rows)
    ∧ (chartFilters cursor filters).endDate = some (floorHour cursor + 3600)
    ∧ (chartFilters cursor filters).startDate = some (cursor - 86400)
    ∧ Cond.tsLe (floorHour cursor + 3600)
        ∈ buildWhereClause (chartFilters cursor filters) none ""
    ∧ Cond.tsGe (cursor - 86400)
        ∈ buildWhereClause (chartFilters cursor filters) none "" := by
  refine ⟨fun s e => rfl, rfl, rfl, ?_, ?_⟩ <;>
    simp [buildWhereClause, chartFilters, cursorConds]

/-- Each `(value, total)` row produced by `getFacetValues` counts exactly
the rows that satisfy the supplied filters and carry that value. -/
theorem getFacetValues_total {fld : FacetField} {g : Filters} {limit : Nat}
    {rows : List LogRow} {v : Int} {t : Nat}
    (h : (v, t) ∈ getFacetValues fld g limit rows) :
    t = ((rows.filter (matchesWhere (buildWhereClause g none ""))).filter
      (fun r => facetKey fld r = v)).length := by
  unfold getFacetValues at h
  have h1 := List.take_subset _ _ h
  rw [mem_sortBy] at h1
  obtain ⟨a, ha, heq⟩ := List.mem_map.mp h1
  simp only [Prod.mk.injEq] at heq
  obtain ⟨rfl, ht⟩ := heq
  exact ht.symm

/-- **C4.**  `GetFacets` removes the `startDate`/`endDate` entries from the
filter set before counting: its result is invariant under any caller-supplied
time range, it queries both facet fields with the stripped filter set, and
each facet row's total equals the number of stored rows matching the
remaining (non-temporal) filters with that field value. -/
theorem getFacets_ignore_time_range (filters : Filters) (rows : List LogRow) :
    (∀ s e, GetFacets { filters with startDate := s, endDate := e } rows
      = GetFacets filters rows)
    ∧ GetFacets filters rows =
        [("severity",
          getFacetValues .severity (facetFilters filters) (facetFieldLimit .severity) rows),
         ("facility",
          getFacetValues .facility (facetFilters filters) (facetFieldLimit .facility) rows)]
    ∧ (facetFilters filters).startDate = none
    ∧ (facetFilters filters).endDate = none
    ∧ ∀ (fld : FacetField) (v : Int) (t : Nat),
        (v, t) ∈ getFacetValues fld (facetFilters filters) (facetFieldLimit fld) rows →
        t = ((rows.filter (matchesWhere (buildWhereClause (facetFilters filters) none ""))).filter
          (fun r => facetKey fld r = v)).length :=
  ⟨fun _ _ => rfl, rfl, rfl, rfl, fun _ _ _ h => getFacetValues_total h⟩

/-- **C4 witness.** -/
theorem getFacets_ignore_time_range_witness :
    (2 : Nat) =
      (([(⟨1, 1, 3, 1, 50, "h", "a", "p", "m", "-", "x"⟩ : LogRow),
         ⟨2, 1, 3, 1, 60, "h", "a", "p", "m", "-", "y"⟩,
         ⟨3, 1, 5, 1, 70, "h", "a", "p", "m", "-", "z"⟩].filter
        (matchesWhere (buildWhereClause (facetFilters {}) none ""))).filter
        (fun r => facetKey .severity r = 3)).length :=
  (getFacets_ignore_time_range {}
    [⟨1, 1, 3, 1, 50, "h", "a", "p", "m", "-", "x"⟩,
     ⟨2, 1, 3, 1, 60, "h", "a", "p", "m", "-", "y"⟩,
     ⟨3, 1, 5, 1, 70, "h", "a", "p", "m", "-", "z"⟩]).2.2.2.2 .severity 3 2 (by decide)

/-- A successful regex match captures a non-empty, all-digit `pri` group. -/
theorem rfc3164Match_pri {l : List Char} {g : R3164Groups}
    (h : rfc3164Match l = some g) :
    g.pri ≠ [] ∧ g.pri.all Char.isDigit = true := by
  unfold rfc3164Match at h
  split at h
  · rename_i r0
    simp only [] at h
    split at h
    · exact absurd h (by simp)
    · rename_i hcond
      split at h
      · rename_i r2
        split at h
        · exact absurd h (by simp)
        · rename_i ts host tag pid msg heq
          simp only [Option.some.injEq] at h
          rw [← h]
          have hne : r0.takeWhile Char.isDigit ≠ [] := by
            intro hnil
            exact hcond (by simp [hnil])
          refine ⟨hne, List.all_eq_true.mpr fun x hx => List.mem_takeWhile_imp hx⟩
      · exact absurd h (by simp)
  · exact absurd h (by simp)

/-- `strconv.Atoi` succeeds on the digit string of the `pri` group. -/
theorem goAtoi_digits {l : List Char} (hne : l ≠ []) (hd : l.all Char.isDigit = true) :
    goAtoi l = some (digitsVal l) := by
  simp [goAtoi, List.isEmpty_eq_false.mpr hne, hd]

/-- **C9.**  Every input line that matches the RFC 3164 regex but whose
timestamp text fails Go time parsing is not an error: the parser substitutes
the current time for the failed parse and builds the entry's timestamp from
those substituted components with the current year. -/
theorem rfc3164_badDate_fallback (now : GoTime) (line : String) (g : R3164Groups)
    (hm : rfc3164Match (goTrimSpace line.toList) = some g)
    (hts : goParseTimestamp g.ts = none) :
    ∃ e, ParseRFC3164ToLogEntry now line = .ok e
      ∧ e.timestamp = ⟨now.year, now.month, now.day, now.hour, now.minute, now.second⟩
      ∧ e.facility = digitsVal g.pri / 8 ∧ e.severity = digitsVal g.pri % 8 := by
  obtain ⟨hne, hdig⟩ := rfc3164Match_pri hm
  have hempty : (goTrimSpace line.toList).isEmpty = false := by
    cases hl : goTrimSpace line.toList with
    | nil => rw [hl] at hm; exact absurd hm (by simp [rfc3164Match])
    | cons a b => rfl
  refine ⟨entryOfGroups now (digitsVal g.pri) g, ?_, ?_, rfl, rfl⟩
  · simp only [ParseRFC3164ToLogEntry, hempty, hm, goAtoi_digits hne hdig,
      Bool.false_eq_true, if_false]
  · simp [entryOfGroups, hts]

/-- **C9 witness.** -/
theorem rfc3164_badDate_fallback_witness :
    rfc3164Match (goTrimSpace ("<34>Feb 31 12:00:00 mymachine su: test").toList)
      = some ⟨"34".toList, "Feb 31 12:00:00".toList, "mymachine".toList,
          "su".toList, none, "test".toList⟩
    ∧ goParseTimestamp ("Feb 31 12:00:00".toList) = none
    ∧ ∃ e, ParseRFC3164ToLogEntry ⟨2026, 1, 15, 10, 0, 0⟩
        "<34>Feb 31 12:00:00 mymachine su: test" = .ok e
        ∧ e.timestamp = ⟨2026, 1, 15, 10, 0, 0⟩ := by
  refine ⟨by decide, by decide, ?_⟩
  obtain ⟨e, h1, h2, h3, h4⟩ := rfc3164_badDate_fallback ⟨2026, 1, 15, 10, 0, 0⟩
    "<34>Feb 31 12:00:00 mymachine su: test"
    ⟨"34".toList, "Feb 31 12:00:00".toList, "mymachine".toList,
      "su".toList, none, "test".toList⟩ (by decide) (by decide)
  exact ⟨e, h1, h2⟩

/-- **C6 (code bug).**  The claim — and the repository's own test
`TestParseRFC3164ToLogEntry_InvalidPriority` — require an error for any PRI
outside 0..191, but `ParseRFC3164ToLogEntry` never checks the range: the
line `<192>…` parses successfully and yields `facility = 24`, violating the
`facility ≤ 23` invariant the claim derives. -/
theorem rfc3164_pri_range_unchecked :
    (ParseRFC3164ToLogEntry ⟨2026, 1, 15, 10, 0, 0⟩
        "<192>Oct 11 22:14:15 mymachine su: test").isOk = true
    ∧ (ParseRFC3164ToLogEntry ⟨2026, 1, 15, 10, 0, 0⟩
        "<192>Oct 11 22:14:15 mymachine su: test").toOption.map LogEntry.facility
        = some 24
    ∧ ¬(24 : Nat) ≤ 23 ∧ (191 : Nat) < 192 := by
  decide

/-- **C7 (code bug).**  The claim — and the repository's own test
`TestParseRFC3164ToLogEntry_YearBoundary` — require a December-dated log
received in January to get the previous year, but `ParseRFC3164ToLogEntry`
always injects `now.Year()`: with `now` in January 2026, `<34>Dec 31 …`
gets year 2026, not 2025. -/
theorem rfc3164_year_not_adjusted :
    (ParseRFC3164ToLogEntry ⟨2026, 1, 15, 10, 0, 0⟩
        "<34>Dec 31 23:59:59 testhost app: Year boundary test").toOption.map
        (fun e => e.timestamp) = some ⟨2026, 12, 31, 23, 59, 59⟩
    ∧ (⟨2026, 1, 15, 10, 0, 0⟩ : GoTime).month = 1
    ∧ (2026 : Int) ≠ (⟨2026, 1, 15, 10, 0, 0⟩ : GoTime).year - 1 := by
  decide

/-- **C8.**  For every RFC 5424 message with priority `P ≤ 191`, the
produced `LogEntry` has `facility = P / 8` and `severity = P % 8`. -/
theorem rfc5424_priority_split (now : GoTime) (m : SyslogMessage) (P : Nat)
    (hP : m.priority = some P) (_hle : P ≤ 191) :
    ∃ e, SyslogMessageToLogEntry now (some m) = some e
      ∧ e.facility = P / 8 ∧ e.severity = P % 8 := by
  refine ⟨_, rfl, ?_, ?_⟩ <;>
    simp [SyslogMessageToLogEntry, GetFacilityFromPriority, GetSeverityFromPriority, hP]

/-- **C8 witness.** -/
theorem rfc5424_priority_split_witness :
    (165 : Nat) ≤ 191
    ∧ ∃ e, SyslogMessageToLogEntry ⟨2023, 10, 1, 12, 34, 56⟩
        (some ⟨some 165, 1, none, some "host1", some "app1", some "2345",
          some "ID01", none, some "Message with structured data"⟩) = some e
        ∧ e.facility = 20 ∧ e.severity = 5 := by
  refine ⟨by decide, ?_⟩
  obtain ⟨e, h1, h2, h3⟩ := rfc5424_priority_split ⟨2023, 10, 1, 12, 34, 56⟩
    ⟨some 165, 1, none, some "host1", some "app1", some "2345",
      some "ID01", none, some "Message with structured data"⟩ 165 rfl (by decide)
  exact ⟨e, h1, h2, h3⟩

end Sloggo
